import Mathlib

/-!
Verification development for `cheby_checker`'s archaic module
`parse_input_MA_EMAIL.py` (OrbFit element parsing and the
heliocentric-ecliptic → barycentric-equatorial frame conversion).

Modelling conventions:
* Scalars are exact rationals `ℚ`; the claims under study are exact
  algebraic statements about the arithmetic the code performs.
* File contents are lists of lines (strings, trailing newlines stripped
  uniformly; no modelled line contains an interior newline, so equality
  against the fixed header line and whitespace tokenisation are unchanged).
* Python exceptions are modelled with `Except` / an `Option String` error
  slot; `sys.exit` and failed `assert`s are error outcomes as well.
* External collaborators that are not part of this repository
  (the `mpcpp.MPC_library` rotation matrix, the JPL ephemeris kernel,
  astropy's TT→TDB time conversion, Python's `float()` and float
  formatting) are modelled from the spec, either as explicit parameters
  of the functions that use them or as definitions marked
  `Modelled from the spec:`.
-/

/-- Fixed km→AU conversion constant from the source
(`au_km = 149597870.700`), as an exact rational. -/
def au_km : ℚ := 1495978707 / 10

/-! ### Whitespace tokenisation (Python `str.split()`) -/

/-- Accumulator-style splitter over characters: splits on runs of
whitespace, discarding empty tokens.  Models Python's `str.split()`
(structural recursion so the kernel can evaluate it). -/
def wsTokensAux : List Char → List Char → List (List Char)
  | [], acc => if acc = [] then [] else [acc.reverse]
  | c :: cs, acc =>
    if c.isWhitespace then
      if acc = [] then wsTokensAux cs [] else acc.reverse :: wsTokensAux cs []
    else wsTokensAux cs (c :: acc)

/-- Python `s.split()`: whitespace-separated tokens of `s`. -/
def splitWS (s : String) : List String :=
  (wsTokensAux s.data []).map String.mk

/-! ### Decimal numeral parsing (Python `float()` on numeric fields)

Modelled from the spec: the input format's "numeric fields" are decimal
numerals (optional sign, digits with optional decimal point, optional
exponent part); Python's `float()` conversion of such a field is modelled
as exact rational evaluation, and raises (`none`) on a malformed field. -/

/-- Split a character list into its longest digit prefix and the rest. -/
def takeDigits : List Char → List Char × List Char
  | [] => ([], [])
  | c :: cs =>
    if c.isDigit then
      let p := takeDigits cs
      (c :: p.1, p.2)
    else ([], c :: cs)

/-- Value of a digit string, most significant first. -/
def digitsToNat (ds : List Char) : Nat :=
  ds.foldl (fun n c => 10 * n + (c.toNat - 48)) 0

/-- Parse an optional exponent part: empty means exponent 0;
`e`/`E` followed by an optional sign and at least one digit; anything
else is malformed. -/
def parseExpPart : List Char → Option Int
  | [] => some 0
  | c :: cs =>
    if c = 'e' ∨ c = 'E' then
      match cs with
      | '+' :: ds =>
        if ds ≠ [] ∧ ds.all Char.isDigit then some (digitsToNat ds) else none
      | '-' :: ds =>
        if ds ≠ [] ∧ ds.all Char.isDigit then some (-(digitsToNat ds : Int)) else none
      | ds =>
        if ds ≠ [] ∧ ds.all Char.isDigit then some (digitsToNat ds) else none
    else none

/-- Parse an unsigned decimal numeral `digits [. digits] [exp]`
(at least one digit overall) to its exact rational value. -/
def parseUFloat (cs : List Char) : Option ℚ :=
  let p1 := takeDigits cs
  match p1.2 with
  | '.' :: r2 =>
    let p2 := takeDigits r2
    if p1.1 = [] ∧ p2.1 = [] then none
    else
      (parseExpPart p2.2).map
        (fun e => ((digitsToNat p1.1 : ℚ) + (digitsToNat p2.1 : ℚ) / 10 ^ p2.1.length) * (10 : ℚ) ^ e)
  | r1 =>
    if p1.1 = [] then none
    else (parseExpPart r1).map (fun e => (digitsToNat p1.1 : ℚ) * (10 : ℚ) ^ e)

/-- Parse a signed decimal numeral (Python `float()` on a well-formed
numeric field); `none` models the `ValueError` on a malformed field. -/
def parseFloat (s : String) : Option ℚ :=
  match s.data with
  | '-' :: cs => (parseUFloat cs).map (fun q => -q)
  | '+' :: cs => parseUFloat cs
  | cs => parseUFloat cs

/-! ### Ecliptic ↔ equatorial rotation (`ecliptic_to_equatorial`) -/

/-- Modelled from the spec: `mpc.rotate_matrix(theta)` from the external
`mpcpp.MPC_library` is the fixed 3×3 rotation about the x-axis built from
the mean obliquity of the ecliptic; it is parameterised here by the cosine
`c` and sine `s` of the rotation angle (negating the angle keeps `c` and
negates `s`). -/
def rotate_matrix (c s : ℚ) : Matrix (Fin 3) (Fin 3) ℚ :=
  !![1, 0, 0; 0, c, -s; 0, s, c]

/-- `np.block([[R3, np.zeros((3,3))], [np.zeros((3,3)), R3]])`: the
block-diagonal 6×6 rotation, written out entrywise. -/
def blockR6 (R : Matrix (Fin 3) (Fin 3) ℚ) : Matrix (Fin 6) (Fin 6) ℚ :=
  !![R 0 0, R 0 1, R 0 2, 0, 0, 0;
     R 1 0, R 1 1, R 1 2, 0, 0, 0;
     R 2 0, R 2 1, R 2 2, 0, 0, 0;
     0, 0, 0, R 0 0, R 0 1, R 0 2;
     0, 0, 0, R 1 0, R 1 1, R 1 2;
     0, 0, 0, R 2 0, R 2 1, R 2 2]

/-- A numpy array argument after `np.atleast_1d`: 1-D (a list of entries)
or 2-D (a list of rows). -/
inductive NDArr : Type where
  | one : List ℚ → NDArr
  | two : List (List ℚ) → NDArr
deriving DecidableEq

/-- `input.shape` of the modelled array (for a 2-D array, row count and
the length of the first row). -/
def NDArr.shape : NDArr → List Nat
  | .one v => [v.length]
  | .two m => [m.length, (m.headD []).length]

/-- `A @ v` for a list-represented vector (entries beyond the matrix
dimension are ignored, missing entries read as 0). -/
def mulVecL (n : Nat) (A : Matrix (Fin n) (Fin n) ℚ) (v : List ℚ) : List ℚ :=
  List.ofFn (fun i : Fin n => ∑ j : Fin n, A i j * v.getD j 0)

/-- View a list of rows as a 6×6 matrix. -/
def ofLists (m : List (List ℚ)) : Matrix (Fin 6) (Fin 6) ℚ :=
  Matrix.of fun i j => (m.getD i []).getD j 0

/-- View a 6×6 matrix as a list of rows. -/
def toLists (M : Matrix (Fin 6) (Fin 6) ℚ) : List (List ℚ) :=
  List.ofFn (fun i : Fin 6 => List.ofFn (fun j : Fin 6 => M i j))

/-- `ecliptic_to_equatorial(input, backwards)`: rotates a 3- or 6-vector
(`R @ input`) or congruence-transforms a 6×6 covariance
(`R @ input @ R.T`); any other shape hits `sys.exit`, modelled as `none`. -/
def ecliptic_to_equatorial (c s : ℚ) (arr : NDArr) (backwards : Bool) : Option NDArr :=
  let R3 := rotate_matrix c (if backwards then -s else s)
  let R6 := blockR6 R3
  match arr with
  | .one v =>
    if v.length = 3 ∨ v.length = 6 then
      some (.one (if v.length = 6 then mulVecL 6 R6 v else mulVecL 3 R3 v))
    else none
  | .two m =>
    if m.length = 6 ∧ m.all (fun r => r.length = 6) then
      some (.two (toLists (R6 * ofLists m * R6.transpose)))
    else none

/-! ### Heliocentric ↔ barycentric translation (`equatorial_helio2bary`) -/

/-- The three components of an ephemeris displacement as a list. -/
def vec3List (f : Fin 3 → ℚ) : List ℚ := [f 0, f 1, f 2]

/-- `equatorial_helio2bary(input_xyz, jd_tdb, backwards)`.  The external
JPL kernel lookup `mpc.jpl_kernel[0, 10].compute_and_differentiate(jd_tdb)`
is passed in as `eph`, returning the barycenter-minus-heliocenter
displacement and its rate, in kilometers, at the given TDB Julian date.
A failed input-shape `assert` is modelled as `none`. -/
def equatorial_helio2bary (eph : ℚ → (Fin 3 → ℚ) × (Fin 3 → ℚ)) (input_xyz : List ℚ)
    (jd_tdb : ℚ) (backwards : Bool) : Option (List ℚ) :=
  let direction : ℚ := if backwards then -1 else 1
  if input_xyz.length = 3 ∨ input_xyz.length = 6 then
    let dd := eph jd_tdb
    let delta : List ℚ :=
      if input_xyz.length = 3 then vec3List dd.1 else vec3List dd.1 ++ vec3List dd.2
    some (input_xyz.zipWith (fun x d => x + d * direction / au_km) delta)
  else none

/-! ### Covariance parser (`_parse_Covariance_List`) -/

/-- `El[:4] == ' COV'`: the record-type mark of a covariance row. -/
def isCovLine (El : String) : Bool :=
  El.data.take 4 = " COV".data

/-- One covariance row: unpack `_, a, b, c = El.split()` (exactly four
tokens) and convert the three value fields to numbers; a failure of either
step is a raised exception. -/
def parseCovLine (El : String) : Except String (ℚ × ℚ × ℚ) :=
  match splitWS El with
  | [_, a, b, c] =>
    match parseFloat a, parseFloat b, parseFloat c with
    | some qa, some qb, some qc => Except.ok (qa, qb, qc)
    | _, _, _ => Except.error "ValueError: could not convert string to float"
  | _ => Except.error "ValueError: cannot unpack covariance line"

/-- The upper-triangular matrix whose entries the code assigns from the
seven parsed covariance rows `t0 .. t6` (three values each), laid out as
in the source: row 0 gets c11,c12,c13 (t0) and c14,c15,c16 (t1); row 1
gets c22,c23,c24 (t2) and c25,c26 (t3); c33 (t3) starts row 2, etc.;
unassigned entries keep the initial zero. -/
def covUpper (t0 t1 t2 t3 t4 t5 t6 : ℚ × ℚ × ℚ) : Matrix (Fin 6) (Fin 6) ℚ :=
  !![t0.1, t0.2.1, t0.2.2, t1.1, t1.2.1, t1.2.2;
     0, t2.1, t2.2.1, t2.2.2, t3.1, t3.2.1;
     0, 0, t3.2.2, t4.1, t4.2.1, t4.2.2;
     0, 0, 0, t5.1, t5.2.1, t5.2.2;
     0, 0, 0, 0, t6.1, t6.2.1;
     0, 0, 0, 0, 0, t6.2.2]

/-- The mirroring loop `for i in range(1,6): for j in range(i):
CoV[i,j] = CoV[j,i]` (the lower triangle is copied from the upper, which
the loop never overwrites). -/
def mirrorLower (U : Matrix (Fin 6) (Fin 6) ℚ) : Matrix (Fin 6) (Fin 6) ℚ :=
  Matrix.of fun i j => if j < i then U j i else U i j

/-- `_parse_Covariance_List(Els)`: keep the rows marked ` COV`; with
exactly seven of them, parse 21 entries into the upper triangle, mirror,
and return `(True, CoV)`; with any other count return `(False, zeros)`.
A malformed row among the seven raises (propagates as `Except.error`). -/
def _parse_Covariance_List (Els : List String) :
    Except String (Bool × Matrix (Fin 6) (Fin 6) ℚ) :=
  let ElCov := Els.filter (fun El => isCovLine El)
  if ElCov.length = 7 then do
    let t0 ← parseCovLine (ElCov.getD 0 "")
    let t1 ← parseCovLine (ElCov.getD 1 "")
    let t2 ← parseCovLine (ElCov.getD 2 "")
    let t3 ← parseCovLine (ElCov.getD 3 "")
    let t4 ← parseCovLine (ElCov.getD 4 "")
    let t5 ← parseCovLine (ElCov.getD 5 "")
    let t6 ← parseCovLine (ElCov.getD 6 "")
    pure (true, mirrorLower (covUpper t0 t1 t2 t3 t4 t5 t6))
  else Except.ok (false, 0)

/-! ### The `ParseElements` aggregate -/

/-- The mutable state of a `ParseElements` object: the four
(vector, covariance) fields with their existence flags, and the epoch.
Fields the constructor sets to `None` are modelled by their defaults,
with `time_mjd_tt` (`self.time`, the MJD value in the TT scale) an
`Option` because the attribute does not exist before `parse_orbfit`
sets it. -/
structure ParseElements where
  helio_ecl_vec_EXISTS : Bool := false
  helio_ecl_vec : List ℚ := []
  helio_ecl_cov_EXISTS : Bool := false
  helio_ecl_cov : Matrix (Fin 6) (Fin 6) ℚ := 0
  bary_eq_vec_EXISTS : Bool := false
  bary_eq_vec : List ℚ := []
  bary_eq_cov_EXISTS : Bool := false
  bary_eq_cov : Matrix (Fin 6) (Fin 6) ℚ := 0
  time_mjd_tt : Option ℚ := none

/-- The fixed section-header line (file lines modelled with trailing
newlines stripped). -/
def cart_head : String := "! Cartesian position and velocity vectors"

/-- The body of `parse_orbfit` once the 25-line block `carEls` after the
last header has been sliced out: parse `carEls[1]` as label plus six
numeric fields into `helio_ecl_vec`, `carEls[2]` as label, MJD(TT),
label into `self.time`, then hand the block to the covariance parser.
Returns the mutated state and, when an exception is raised, its message
(mutations made before the raise persist, as in Python). -/
def parseCartSection (carEls : List String) (st : ParseElements) :
    ParseElements × Option String :=
  match splitWS (carEls.getD 1 "") with
  | [_, car_x, car_y, car_z, car_dx, car_dy, car_dz] =>
    match parseFloat car_x, parseFloat car_y, parseFloat car_z,
          parseFloat car_dx, parseFloat car_dy, parseFloat car_dz with
    | some qx, some qy, some qz, some qdx, some qdy, some qdz =>
      let st1 := { st with helio_ecl_vec := [qx, qy, qz, qdx, qdy, qdz],
                           helio_ecl_vec_EXISTS := true }
      match splitWS (carEls.getD 2 "") with
      | [_, mjd_tdt, _] =>
        match parseFloat mjd_tdt with
        | some qm =>
          let st2 := { st1 with time_mjd_tt := some qm }
          match _parse_Covariance_List carEls with
          | Except.ok bc =>
            ({ st2 with helio_ecl_cov_EXISTS := bc.1, helio_ecl_cov := bc.2 }, none)
          | Except.error e => (st2, some e)
        | none => (st1, some "ValueError: could not convert string to float")
      | _ => (st1, some "ValueError: cannot unpack epoch line")
    | _, _, _, _, _, _ => (st, some "ValueError: could not convert string to float")
  | _ => (st, some "ValueError: cannot unpack state vector line")

/-- `parse_orbfit(felfile)` over the file's lines: if the cartesian header
occurs, slice 25 lines from its last occurrence
(`carLoc = len(el) - 1 - reversed(el).index(cart_head)`) and parse them;
otherwise raise the no-valid-elements `TypeError`. -/
def parse_orbfit (lines : List String) (st : ParseElements) :
    ParseElements × Option String :=
  if lines.count cart_head > 0 then
    let carLoc := lines.length - 1 - lines.reverse.indexOf cart_head
    parseCartSection ((lines.drop carLoc).take 25) st
  else (st, some "TypeError: no valid elements in the input file")

/-- `make_bary_equatorial()`: rotate-then-translate the vector when it
exists, rotate the covariance when it exists, and raise the
nothing-to-transform `TypeError` when neither exists.  The external
astropy conversion `self.time.tdb.jd` (TT MJD → TDB JD) is passed in as
`tdbJd`; the ephemeris lookup as `eph`. -/
def make_bary_equatorial (c s : ℚ) (eph : ℚ → (Fin 3 → ℚ) × (Fin 3 → ℚ))
    (tdbJd : ℚ → ℚ) (st : ParseElements) : ParseElements × Option String :=
  let stepVec : ParseElements × Option String :=
    if st.helio_ecl_vec_EXISTS then
      match ecliptic_to_equatorial c s (NDArr.one st.helio_ecl_vec) false with
      | some (NDArr.one rotated) =>
        match st.time_mjd_tt with
        | some t =>
          match equatorial_helio2bary eph rotated (tdbJd t) false with
          | some shifted =>
            ({ st with bary_eq_vec := shifted, bary_eq_vec_EXISTS := true }, none)
          | none => (st, some "AssertionError: bad vector shape")
        | none => (st, some "AttributeError: time")
      | _ => (st, some "SystemExit: does not compute")
    else (st, none)
  match stepVec.2 with
  | some e => (stepVec.1, some e)
  | none =>
    let st1 := stepVec.1
    let stepCov : ParseElements × Option String :=
      if st1.helio_ecl_cov_EXISTS then
        match ecliptic_to_equatorial c s (NDArr.two (toLists st1.helio_ecl_cov)) false with
        | some (NDArr.two rows) =>
          ({ st1 with bary_eq_cov := ofLists rows, bary_eq_cov_EXISTS := true }, none)
        | _ => (st1, some "SystemExit: does not compute")
      else (st1, none)
    match stepCov.2 with
    | some e => (stepCov.1, some e)
    | none =>
      let st2 := stepCov.1
      if !st2.helio_ecl_vec_EXISTS && !st2.helio_ecl_cov_EXISTS then
        (st2, some "TypeError: no valid helio_ecl to transform into bary_eq")
      else (st2, none)

/-- `save_elements()`: the text written to the output file, or `none` for
the `AttributeError` when `self.time` was never set.  The external float
renderings are passed in: `jdStr` for the f-string `{self.tstart:}` and
`fmt` for `{coeff: 18.15e}` (signed scientific notation, width 18,
15 fractional digits). -/
def save_elements (tdbJd : ℚ → ℚ) (jdStr : ℚ → String) (fmt : ℚ → String)
    (st : ParseElements) : Option (List String) :=
  match st.time_mjd_tt with
  | none => none
  | some t =>
    some (["tstart " ++ jdStr (tdbJd t) ++ "\n",
           "tstep +20.0\n", "trange 600.\n", "geocentric 0\n", "state\n"]
      ++ st.bary_eq_vec.enum.map (fun p =>
            fmt p.2 ++ " " ++ (if p.1 = 2 ∨ p.1 = 5 then "\n" else "")))

/-! ### Concrete data used by witnesses and counterexamples -/

/-- The vector branch of `ecliptic_to_equatorial` as a list-to-list map
(the orchestrator and the round-trip property compose it this way). -/
def rotList (c s : ℚ) (b : Bool) (v : List ℚ) : Option (List ℚ) :=
  match ecliptic_to_equatorial c s (NDArr.one v) b with
  | some (NDArr.one w) => some w
  | _ => none

/-- Rotate, translate, then inverse rotation, then inverse translation:
the composite in the order the round-trip claim lists the steps. -/
def roundTripRotBackFirst (c s : ℚ) (eph : ℚ → (Fin 3 → ℚ) × (Fin 3 → ℚ))
    (jd : ℚ) (v : List ℚ) : Option (List ℚ) :=
  (rotList c s false v).bind fun w1 =>
    (equatorial_helio2bary eph w1 jd false).bind fun w2 =>
      (rotList c s true w2).bind fun w3 =>
        equatorial_helio2bary eph w3 jd true

/-- Rotate, translate, then inverse translation, then inverse rotation:
the composite that undoes the forward pipeline innermost-first. -/
def roundTripTransBackFirst (c s : ℚ) (eph : ℚ → (Fin 3 → ℚ) × (Fin 3 → ℚ))
    (jd : ℚ) (v : List ℚ) : Option (List ℚ) :=
  (rotList c s false v).bind fun w1 =>
    (equatorial_helio2bary eph w1 jd false).bind fun w2 =>
      (equatorial_helio2bary eph w2 jd true).bind fun w3 =>
        rotList c s true w3

/-- A fixture ephemeris whose displacement is `au_km` kilometers along
the y axis with zero rate: one AU of displacement after conversion. -/
def ephY : ℚ → (Fin 3 → ℚ) × (Fin 3 → ℚ) :=
  fun _ => (fun i => if i = 1 then au_km else 0, fun _ => 0)

/-- The all-zero fixture ephemeris. -/
def ephZero : ℚ → (Fin 3 → ℚ) × (Fin 3 → ℚ) :=
  fun _ => (fun _ => 0, fun _ => 0)

/-- A fixture input file: two cartesian sections; the second (last) one
carries the vector `[1,2,3,0.1,0.2,0.3]` and epoch MJD 58849.0 (TT). -/
def exFile : List String :=
  [cart_head, "A 9.0 9.0 9.0 9.0 9.0 9.0", "A 11111.0 A",
   cart_head, "X 1.0 2.0 3.0 0.1 0.2 0.3", "X 58849.0 X"]

/-- Seven well-formed covariance rows (preceded by a non-covariance line). -/
def exCovLines : List String :=
  ["X 1.0 2.0 3.0 0.1 0.2 0.3",
   " COV 1.0 2.0 3.0", " COV 4.0 5.0 6.0", " COV 7.0 8.0 9.0",
   " COV 10. 11. 12.", " COV 13. 14. 15.", " COV 16. 17. 18.",
   " COV 19. 20. 21."]

/-- Seven covariance-marked rows each of which has only two value fields,
so unpacking `_, a, b, c = line.split()` fails. -/
def covBadLines : List String := List.replicate 7 " COV 1.0 2.0"

/-- A parsed-state fixture: heliocentric-ecliptic 6-vector and epoch set,
no covariance. -/
def stVec : ParseElements :=
  { helio_ecl_vec_EXISTS := true, helio_ecl_vec := [3, 2, 1, 1, 2, 3],
    time_mjd_tt := some 58849 }

/-- The 21 covariance entries in row-major upper-triangular order
(c11, c12, ..., c16, c22, ..., c26, c33, ..., c66), as the seven parsed
rows supply them. -/
def covEntries (t0 t1 t2 t3 t4 t5 t6 : ℚ × ℚ × ℚ) : List ℚ :=
  [t0.1, t0.2.1, t0.2.2, t1.1, t1.2.1, t1.2.2,
   t2.1, t2.2.1, t2.2.2, t3.1, t3.2.1,
   t3.2.2, t4.1, t4.2.1, t4.2.2,
   t5.1, t5.2.1, t5.2.2,
   t6.1, t6.2.1,
   t6.2.2]

/-- Position of upper-triangle entry `(i, j)` (`i ≤ j`) in the row-major
upper-triangular enumeration of a 6×6 symmetric matrix. -/
def covIdx (i j : ℕ) : ℕ := i * (11 - i) / 2 + j

/-- The congruence transform the covariance branch applies. -/
def covRot (c s : ℚ) (M : Matrix (Fin 6) (Fin 6) ℚ) : Matrix (Fin 6) (Fin 6) ℚ :=
  blockR6 (rotate_matrix c s) * M * (blockR6 (rotate_matrix c s)).transpose

/-- A transformed-state fixture for serialization: epoch set and a
barycentric-equatorial 6-vector present. -/
def stSave : ParseElements :=
  { time_mjd_tt := some 7, bary_eq_vec := [1, 2, 3, 4, 5, 6],
    bary_eq_vec_EXISTS := true }

/-! # Theorems -/

/-! ### List-level helper lemmas -/

theorem getD_ofFn {α : Type} {n : Nat} (f : Fin n → α) (i : Fin n) (d : α) :
    (List.ofFn f).getD i d = f i := by
  rw [List.getD_eq_getElem?_getD, List.getElem?_ofFn]
  simp [List.ofFnNthVal, i.isLt]

theorem length_mulVecL (n : Nat) (A : Matrix (Fin n) (Fin n) ℚ) (v : List ℚ) :
    (mulVecL n A v).length = n := by
  simp [mulVecL]

theorem mulVecL_mulVecL (n : Nat) (A B : Matrix (Fin n) (Fin n) ℚ) (v : List ℚ) :
    mulVecL n A (mulVecL n B v) = mulVecL n (A * B) v := by
  unfold mulVecL
  rw [List.ofFn_inj]
  funext i
  simp only [getD_ofFn, Matrix.mul_apply, Finset.sum_mul, Finset.mul_sum, mul_assoc]
  exact Finset.sum_comm

theorem mulVecL_one (n : Nat) (v : List ℚ) (h : v.length = n) :
    mulVecL n 1 v = v := by
  apply List.ext_getElem (by simp [mulVecL, h])
  intro i h1 h2
  have hi : i < n := by simpa [mulVecL] using h1
  simp only [mulVecL, List.getElem_ofFn, Matrix.one_apply, ite_mul, one_mul, zero_mul,
    Finset.sum_ite_eq, Finset.mem_univ, if_true]
  simp [List.getD_eq_getElem?_getD, List.getElem?_eq_getElem h2]

theorem ofLists_toLists (M : Matrix (Fin 6) (Fin 6) ℚ) :
    ofLists (toLists M) = M := by
  ext i j
  rw [ofLists, toLists, Matrix.of_apply, getD_ofFn, getD_ofFn]

theorem toLists_length (M : Matrix (Fin 6) (Fin 6) ℚ) :
    (toLists M).length = 6 := by
  simp [toLists]

theorem toLists_all (M : Matrix (Fin 6) (Fin 6) ℚ) :
    (toLists M).all (fun r => r.length = 6) = true := by
  simp [toLists, List.all_eq_true]

/-! ### Rotation algebra -/

theorem cons_val_five {α : Type} {m : ℕ} (x : α) (u : Fin (m + 5) → α) :
    Matrix.vecCons x u 5 = u 4 := rfl

theorem rotate_matrix_inv (c s : ℚ) (h : c ^ 2 + s ^ 2 = 1) :
    rotate_matrix c (-s) * rotate_matrix c s = 1 := by
  rw [rotate_matrix, rotate_matrix, Matrix.mul_fin_three, Matrix.one_fin_three]
  ext i j
  fin_cases i <;> fin_cases j <;> simp [Matrix.vecHead, Matrix.vecTail] <;>
    first
    | rfl
    | ring1
    | linear_combination h

set_option maxHeartbeats 1000000 in
theorem blockR6_mul (A B : Matrix (Fin 3) (Fin 3) ℚ) :
    blockR6 A * blockR6 B = blockR6 (A * B) := by
  ext i j
  fin_cases i <;> fin_cases j <;>
    simp [blockR6, cons_val_five, Matrix.mul_apply, Fin.sum_univ_six,
      Fin.sum_univ_three, Matrix.vecHead, Matrix.vecTail]

theorem blockR6_one : blockR6 (1 : Matrix (Fin 3) (Fin 3) ℚ) = 1 := by
  ext i j
  fin_cases i <;> fin_cases j <;>
    simp [blockR6, cons_val_five, Matrix.one_apply, Matrix.one_fin_three,
      Matrix.vecHead, Matrix.vecTail]

/-! ### Branch lemmas for the two transforms -/

theorem eclToEq_vec6 (c s : ℚ) (b : Bool) (v : List ℚ) (h : v.length = 6) :
    ecliptic_to_equatorial c s (NDArr.one v) b
      = some (NDArr.one (mulVecL 6 (blockR6 (rotate_matrix c (if b then -s else s))) v)) := by
  simp [ecliptic_to_equatorial, h]

theorem eclToEq_vec3 (c s : ℚ) (b : Bool) (v : List ℚ) (h : v.length = 3) :
    ecliptic_to_equatorial c s (NDArr.one v) b
      = some (NDArr.one (mulVecL 3 (rotate_matrix c (if b then -s else s)) v)) := by
  simp [ecliptic_to_equatorial, h]

theorem eclToEq_cov (c s : ℚ) (b : Bool) (M : Matrix (Fin 6) (Fin 6) ℚ) :
    ecliptic_to_equatorial c s (NDArr.two (toLists M)) b
      = some (NDArr.two (toLists
          (blockR6 (rotate_matrix c (if b then -s else s)) * M
            * (blockR6 (rotate_matrix c (if b then -s else s))).transpose))) := by
  simp [ecliptic_to_equatorial, toLists_length, toLists_all, ofLists_toLists]

theorem helio2bary_eq (eph : ℚ → (Fin 3 → ℚ) × (Fin 3 → ℚ)) (v : List ℚ) (jd : ℚ)
    (b : Bool) (h : v.length = 3 ∨ v.length = 6) :
    equatorial_helio2bary eph v jd b
      = some (v.zipWith (fun x d => x + d * (if b then -1 else 1) / au_km)
          (if v.length = 3 then vec3List (eph jd).1
           else vec3List (eph jd).1 ++ vec3List (eph jd).2)) := by
  rw [equatorial_helio2bary, if_pos h]

/-! ### C4 and C8 -/

/-- C4: applying the ecliptic-to-equatorial rotation to a symmetric 6×6
covariance (the congruence transform `R C Rᵀ`) yields a symmetric matrix,
in either direction; and the matrix the covariance parser mirrors from its
upper triangle is always symmetric, so symmetry holds both after parsing
and after any rotation. -/
theorem C4_congruence_preserves_symmetry :
    (∀ (c s : ℚ) (b : Bool) (M : Matrix (Fin 6) (Fin 6) ℚ), M.IsSymm →
      ∃ D : Matrix (Fin 6) (Fin 6) ℚ,
        ecliptic_to_equatorial c s (NDArr.two (toLists M)) b
          = some (NDArr.two (toLists D)) ∧ D.IsSymm)
    ∧ (∀ U : Matrix (Fin 6) (Fin 6) ℚ, (mirrorLower U).IsSymm) := by
  constructor
  · intro c s b M hM
    refine ⟨_, eclToEq_cov c s b M, ?_⟩
    have hM' : M.transpose = M := hM
    show _ = _
    rw [Matrix.transpose_mul, Matrix.transpose_mul, Matrix.transpose_transpose, hM',
      Matrix.mul_assoc]
  · intro U
    show (mirrorLower U).transpose = mirrorLower U
    ext i j
    simp only [Matrix.transpose_apply, mirrorLower, Matrix.of_apply]
    by_cases h1 : i < j
    · rw [if_pos h1, if_neg (asymm h1)]
    · by_cases h2 : j < i
      · rw [if_neg h1, if_pos h2]
      · have h3 : i = j := le_antisymm (not_lt.mp h2) (not_lt.mp h1)
        subst h3
        simp

/-- Closed witness for C4 at the zero covariance. -/
theorem C4_congruence_preserves_symmetry_witness :
    (0 : Matrix (Fin 6) (Fin 6) ℚ).IsSymm
    ∧ ∃ D : Matrix (Fin 6) (Fin 6) ℚ,
        ecliptic_to_equatorial 0 1 (NDArr.two (toLists 0)) false
          = some (NDArr.two (toLists D)) ∧ D.IsSymm :=
  ⟨Matrix.transpose_zero, C4_congruence_preserves_symmetry.1 0 1 false 0 Matrix.transpose_zero⟩

theorem toLists_headD (M : Matrix (Fin 6) (Fin 6) ℚ) :
    ((toLists M).headD []).length = 6 := by
  simp [toLists, List.ofFn_succ]

/-- C8: an input to the ecliptic↔equatorial rotation that is neither a
1-D array of length 3 or 6 nor a 2-D 6×6 array makes the operation
terminate the process (`sys.exit`, modelled as `none`) instead of
returning an output; under the shape precondition that branch is
unreachable and an output of the same shape as the input is returned. -/
theorem C8_rotation_shape_dispatch :
    ∀ (c s : ℚ) (b : Bool) (arr : NDArr),
      ((∀ v, arr = NDArr.one v → ¬(v.length = 3 ∨ v.length = 6)) →
       (∀ m, arr = NDArr.two m → ¬(m.length = 6 ∧ ∀ r ∈ m, r.length = 6)) →
        ecliptic_to_equatorial c s arr b = none)
      ∧ (((∃ v, arr = NDArr.one v ∧ (v.length = 3 ∨ v.length = 6)) ∨
          (∃ m, arr = NDArr.two m ∧ m.length = 6 ∧ ∀ r ∈ m, r.length = 6)) →
         ∃ out, ecliptic_to_equatorial c s arr b = some out ∧ out.shape = arr.shape) := by
  intro c s b arr
  constructor
  · intro h1 h2
    match arr with
    | NDArr.one v =>
      have := h1 v rfl
      simp [ecliptic_to_equatorial, this]
    | NDArr.two m =>
      have := h2 m rfl
      have hg : ¬(m.length = 6 ∧ m.all (fun r => r.length = 6) = true) := by
        simpa [List.all_eq_true] using this
      simp only [ecliptic_to_equatorial]
      rw [if_neg hg]
  · rintro (⟨v, rfl, hv | hv⟩ | ⟨m, rfl, hm6, hall⟩)
    · exact ⟨_, eclToEq_vec3 c s b v hv, by simp [NDArr.shape, mulVecL, hv]⟩
    · exact ⟨_, eclToEq_vec6 c s b v hv, by simp [NDArr.shape, mulVecL, hv]⟩
    · have hg : m.length = 6 ∧ m.all (fun r => r.length = 6) = true := by
        simp only [List.all_eq_true, decide_eq_true_eq]
        exact ⟨hm6, hall⟩
      refine ⟨NDArr.two (toLists (blockR6 (rotate_matrix c (if b then -s else s)) * ofLists m
          * (blockR6 (rotate_matrix c (if b then -s else s))).transpose)), ?_, ?_⟩
      · simp only [ecliptic_to_equatorial]
        rw [if_pos hg]
      · have hhead : (m.head?.getD []).length = 6 := by
          match m, hm6 with
          | r :: rest, _ => exact hall r (List.mem_cons_self r rest)
        simp [NDArr.shape, toLists, List.ofFn_succ, hm6, hhead]

/-- Closed witness for C8: a 1-D array of length 4 terminates the process;
a 1-D array of length 3 returns a same-shape output. -/
theorem C8_rotation_shape_dispatch_witness :
    ecliptic_to_equatorial 0 1 (NDArr.one [1, 2, 3, 4]) false = none
    ∧ ∃ out, ecliptic_to_equatorial 0 1 (NDArr.one [5, 6, 7]) false = some out
        ∧ out.shape = NDArr.shape (NDArr.one [5, 6, 7]) := by
  constructor
  · exact (C8_rotation_shape_dispatch 0 1 false (NDArr.one [1, 2, 3, 4])).1
      (by intro v hv; cases hv; decide) (by intro m hm; cases hm)
  · exact (C8_rotation_shape_dispatch 0 1 false (NDArr.one [5, 6, 7])).2
      (Or.inl ⟨[5, 6, 7], rfl, by decide⟩)

/-! ### C3 and C10: the covariance parser -/

theorem mirrorLower_isSymm (U : Matrix (Fin 6) (Fin 6) ℚ) : (mirrorLower U).IsSymm := by
  show (mirrorLower U).transpose = mirrorLower U
  ext i j
  simp only [Matrix.transpose_apply, mirrorLower, Matrix.of_apply]
  by_cases h1 : i < j
  · rw [if_pos h1, if_neg (asymm h1)]
  · by_cases h2 : j < i
    · rw [if_neg h1, if_pos h2]
    · have h3 : i = j := le_antisymm (not_lt.mp h2) (not_lt.mp h1)
      subst h3
      simp

/-- C3: with exactly seven covariance-marked rows the parser returns the
6×6 matrix whose upper triangle holds the 21 parsed entries in row-major
upper-triangular order with the lower triangle mirrored (hence symmetric),
together with a true flag; with any other count of such rows it returns
the all-zero matrix and a false flag. -/
theorem C3_covariance_parse (Els : List String) :
    ((Els.filter (fun El => isCovLine El)).length ≠ 7 →
      _parse_Covariance_List Els = Except.ok (false, 0))
    ∧ ∀ (l0 l1 l2 l3 l4 l5 l6 : String) (t0 t1 t2 t3 t4 t5 t6 : ℚ × ℚ × ℚ),
        Els.filter (fun El => isCovLine El) = [l0, l1, l2, l3, l4, l5, l6] →
        parseCovLine l0 = Except.ok t0 → parseCovLine l1 = Except.ok t1 →
        parseCovLine l2 = Except.ok t2 → parseCovLine l3 = Except.ok t3 →
        parseCovLine l4 = Except.ok t4 → parseCovLine l5 = Except.ok t5 →
        parseCovLine l6 = Except.ok t6 →
        _parse_Covariance_List Els
            = Except.ok (true, mirrorLower (covUpper t0 t1 t2 t3 t4 t5 t6))
          ∧ (mirrorLower (covUpper t0 t1 t2 t3 t4 t5 t6)).IsSymm
          ∧ ∀ i j : Fin 6, i ≤ j →
              mirrorLower (covUpper t0 t1 t2 t3 t4 t5 t6) i j
                = (covEntries t0 t1 t2 t3 t4 t5 t6).getD (covIdx i j) 0 := by
  constructor
  · intro hne
    rw [_parse_Covariance_List, if_neg hne]
  · intro l0 l1 l2 l3 l4 l5 l6 t0 t1 t2 t3 t4 t5 t6 hf h0 h1 h2 h3 h4 h5 h6
    refine ⟨?_, mirrorLower_isSymm _, ?_⟩
    · rw [_parse_Covariance_List, hf]
      simp only [List.length_cons, List.length_nil]
      rw [if_pos trivial]
      simp only [List.getD_cons_zero, List.getD_cons_succ]
      rw [h0, h1, h2, h3, h4, h5, h6]
      rfl
    · intro i j hij
      fin_cases i <;> fin_cases j <;>
        first
        | rfl
        | exact absurd hij (by decide)

/-- Closed witness for C3: the seven fixture rows (values 1..21) parse to
the symmetric matrix they encode with a true flag; and (first conjunct at
a one-line fixture) a single row yields the zero matrix and a false flag. -/
theorem C3_covariance_parse_witness :
    ((covBadLines.take 1).filter (fun El => isCovLine El)).length ≠ 7
    ∧ _parse_Covariance_List (covBadLines.take 1) = Except.ok (false, 0)
    ∧ exCovLines.filter (fun El => isCovLine El)
        = [" COV 1.0 2.0 3.0", " COV 4.0 5.0 6.0", " COV 7.0 8.0 9.0",
           " COV 10. 11. 12.", " COV 13. 14. 15.", " COV 16. 17. 18.",
           " COV 19. 20. 21."]
    ∧ _parse_Covariance_List exCovLines
        = Except.ok (true, mirrorLower (covUpper (1, 2, 3) (4, 5, 6) (7, 8, 9)
            (10, 11, 12) (13, 14, 15) (16, 17, 18) (19, 20, 21))) := by
  have e1 : parseCovLine " COV 1.0 2.0 3.0" = Except.ok ((1 : ℚ), (2 : ℚ), (3 : ℚ)) := by
    rw [parseCovLine, show splitWS " COV 1.0 2.0 3.0" = ["COV", "1.0", "2.0", "3.0"] from by decide]
    simp +decide [parseFloat, parseUFloat, takeDigits, parseExpPart, digitsToNat]
  have e2 : parseCovLine " COV 4.0 5.0 6.0" = Except.ok ((4 : ℚ), (5 : ℚ), (6 : ℚ)) := by
    rw [parseCovLine, show splitWS " COV 4.0 5.0 6.0" = ["COV", "4.0", "5.0", "6.0"] from by decide]
    simp +decide [parseFloat, parseUFloat, takeDigits, parseExpPart, digitsToNat]
  have e3 : parseCovLine " COV 7.0 8.0 9.0" = Except.ok ((7 : ℚ), (8 : ℚ), (9 : ℚ)) := by
    rw [parseCovLine, show splitWS " COV 7.0 8.0 9.0" = ["COV", "7.0", "8.0", "9.0"] from by decide]
    simp +decide [parseFloat, parseUFloat, takeDigits, parseExpPart, digitsToNat]
  have e4 : parseCovLine " COV 10. 11. 12." = Except.ok ((10 : ℚ), (11 : ℚ), (12 : ℚ)) := by
    rw [parseCovLine, show splitWS " COV 10. 11. 12." = ["COV", "10.", "11.", "12."] from by decide]
    simp +decide [parseFloat, parseUFloat, takeDigits, parseExpPart, digitsToNat]
  have e5 : parseCovLine " COV 13. 14. 15." = Except.ok ((13 : ℚ), (14 : ℚ), (15 : ℚ)) := by
    rw [parseCovLine, show splitWS " COV 13. 14. 15." = ["COV", "13.", "14.", "15."] from by decide]
    simp +decide [parseFloat, parseUFloat, takeDigits, parseExpPart, digitsToNat]
  have e6 : parseCovLine " COV 16. 17. 18." = Except.ok ((16 : ℚ), (17 : ℚ), (18 : ℚ)) := by
    rw [parseCovLine, show splitWS " COV 16. 17. 18." = ["COV", "16.", "17.", "18."] from by decide]
    simp +decide [parseFloat, parseUFloat, takeDigits, parseExpPart, digitsToNat]
  have e7 : parseCovLine " COV 19. 20. 21." = Except.ok ((19 : ℚ), (20 : ℚ), (21 : ℚ)) := by
    rw [parseCovLine, show splitWS " COV 19. 20. 21." = ["COV", "19.", "20.", "21."] from by decide]
    simp +decide [parseFloat, parseUFloat, takeDigits, parseExpPart, digitsToNat]
  have hff : exCovLines.filter (fun El => isCovLine El)
      = [" COV 1.0 2.0 3.0", " COV 4.0 5.0 6.0", " COV 7.0 8.0 9.0",
         " COV 10. 11. 12.", " COV 13. 14. 15.", " COV 16. 17. 18.",
         " COV 19. 20. 21."] := by decide
  refine ⟨by decide, (C3_covariance_parse (covBadLines.take 1)).1 (by decide), hff,
    ((C3_covariance_parse exCovLines).2 _ _ _ _ _ _ _ _ _ _ _ _ _ _
      hff e1 e2 e3 e4 e5 e6 e7).1⟩

/-- C10: seven covariance-marked rows one of which does not split into
exactly four tokens make the parser raise (tuple-unpacking error) rather
than return the recoverable zero-matrix/false-flag value: only a row count
different from seven is guarded, not malformed rows. -/
theorem C10_malformed_cov_row_raises :
    (covBadLines.filter (fun El => isCovLine El)).length = 7
    ∧ _parse_Covariance_List covBadLines
        = Except.error "ValueError: cannot unpack covariance line" := by
  constructor
  · decide
  · rw [_parse_Covariance_List, show covBadLines.filter (fun El => isCovLine El)
        = covBadLines from by decide]
    rw [if_pos (by decide)]
    rw [show covBadLines.getD 0 "" = " COV 1.0 2.0" from by decide]
    rw [parseCovLine, show splitWS " COV 1.0 2.0" = ["COV", "1.0", "2.0"] from by decide]
    rfl

/-! ### C6 and C2: the file parser -/

/-- C6: a file whose lines never contain the cartesian header makes
`parse_orbfit` raise the no-valid-elements error with the object's state
untouched (no partial population). -/
theorem C6_missing_header_is_fatal (lines : List String) (st : ParseElements)
    (h : lines.count cart_head = 0) :
    parse_orbfit lines st
      = (st, some "TypeError: no valid elements in the input file") := by
  rw [parse_orbfit, if_neg (by simp [h])]

/-- Closed witness for C6 at a one-line junk file and a fresh object. -/
theorem C6_missing_header_is_fatal_witness :
    ["junk"].count cart_head = 0
    ∧ parse_orbfit ["junk"] {}
        = ({}, some "TypeError: no valid elements in the input file") :=
  ⟨by decide, C6_missing_header_is_fatal ["junk"] {} (by decide)⟩

theorem indexOf_eq_of_getElem {α : Type} [DecidableEq α] :
    ∀ (l : List α) (a : α) (k : Nat), l[k]? = some a →
      (∀ i, i < k → l[i]? ≠ some a) → l.indexOf a = k := by
  intro l
  induction l with
  | nil => intro a k hk _; simp at hk
  | cons b t ih =>
    intro a k hk hlt
    cases k with
    | zero =>
      have hb : b = a := by simpa using hk
      subst hb
      exact List.indexOf_cons_self b t
    | succ k' =>
      have hb : b ≠ a := by
        intro hba
        exact hlt 0 (Nat.succ_pos _) (by simpa using hba)
      rw [List.indexOf_cons_ne _ hb,
        ih a k' (by simpa using hk)
          (fun i hi => by simpa using hlt (i + 1) (Nat.succ_lt_succ hi))]

theorem carLoc_eq_last (lines : List String) (k : Nat)
    (hk : lines[k]? = some cart_head)
    (hlast : ∀ j, k < j → lines[j]? ≠ some cart_head) :
    lines.length - 1 - lines.reverse.indexOf cart_head = k := by
  have hklen : k < lines.length := by
    by_contra hc
    rw [List.getElem?_eq_none (Nat.le_of_not_lt hc)] at hk
    exact Option.noConfusion hk
  have hrev : lines.reverse.indexOf cart_head = lines.length - 1 - k := by
    apply indexOf_eq_of_getElem
    · rw [List.getElem?_reverse (by omega : lines.length - 1 - k < lines.length)]
      rw [(by omega : lines.length - 1 - (lines.length - 1 - k) = k)]
      exact hk
    · intro i hi hcontra
      have hi2 : i < lines.length := by omega
      rw [List.getElem?_reverse (by simpa using hi2)] at hcontra
      exact hlast (lines.length - 1 - i) (by omega) hcontra
  rw [hrev]
  omega

theorem getD_drop_take (lines : List String) (k i : Nat) (hi : i < 25) :
    ((lines.drop k).take 25).getD i "" = lines.getD (k + i) "" := by
  rw [List.getD_eq_getElem?_getD, List.getD_eq_getElem?_getD,
    List.getElem?_take, if_pos hi, List.getElem?_drop]

theorem parseCartSection_ok (carEls : List String) (st : ParseElements)
    (lab x1 x2 x3 x4 x5 x6 : String) (q1 q2 q3 q4 q5 q6 : ℚ)
    (lab2 mjd lab3 : String) (qm : ℚ) (covB : Bool) (covM : Matrix (Fin 6) (Fin 6) ℚ)
    (hs1 : splitWS (carEls.getD 1 "") = [lab, x1, x2, x3, x4, x5, x6])
    (hx1 : parseFloat x1 = some q1) (hx2 : parseFloat x2 = some q2)
    (hx3 : parseFloat x3 = some q3) (hx4 : parseFloat x4 = some q4)
    (hx5 : parseFloat x5 = some q5) (hx6 : parseFloat x6 = some q6)
    (hs2 : splitWS (carEls.getD 2 "") = [lab2, mjd, lab3])
    (hm : parseFloat mjd = some qm)
    (hcov : _parse_Covariance_List carEls = Except.ok (covB, covM)) :
    parseCartSection carEls st
      = ({ st with helio_ecl_vec := [q1, q2, q3, q4, q5, q6],
                   helio_ecl_vec_EXISTS := true,
                   time_mjd_tt := some qm,
                   helio_ecl_cov_EXISTS := covB, helio_ecl_cov := covM }, none) := by
  rw [parseCartSection, hs1]
  simp only [hx1, hx2, hx3, hx4, hx5, hx6, hs2, hm, hcov]

/-- C2: whenever the file contains the cartesian header, `parse_orbfit`
selects its last occurrence (index `k` with no later occurrence), parses
the line at offset 1 as one identifier token plus six numeric fields into
the heliocentric-ecliptic vector (setting its flag), the line at offset 2
as an identifier plus a TT-scale MJD into the epoch, and hands the 25-line
block to the covariance parser; with two header occurrences only the last
section is used. -/
theorem C2_file_parser_last_section (lines : List String) (st : ParseElements) (k : Nat)
    (lab x1 x2 x3 x4 x5 x6 : String) (q1 q2 q3 q4 q5 q6 : ℚ)
    (lab2 mjd lab3 : String) (qm : ℚ) (covB : Bool) (covM : Matrix (Fin 6) (Fin 6) ℚ)
    (hk : lines[k]? = some cart_head)
    (hlast : ∀ j, k < j → lines[j]? ≠ some cart_head)
    (hs1 : splitWS (lines.getD (k + 1) "") = [lab, x1, x2, x3, x4, x5, x6])
    (hx1 : parseFloat x1 = some q1) (hx2 : parseFloat x2 = some q2)
    (hx3 : parseFloat x3 = some q3) (hx4 : parseFloat x4 = some q4)
    (hx5 : parseFloat x5 = some q5) (hx6 : parseFloat x6 = some q6)
    (hs2 : splitWS (lines.getD (k + 2) "") = [lab2, mjd, lab3])
    (hm : parseFloat mjd = some qm)
    (hcov : _parse_Covariance_List ((lines.drop k).take 25) = Except.ok (covB, covM)) :
    parse_orbfit lines st
      = ({ st with helio_ecl_vec := [q1, q2, q3, q4, q5, q6],
                   helio_ecl_vec_EXISTS := true,
                   time_mjd_tt := some qm,
                   helio_ecl_cov_EXISTS := covB, helio_ecl_cov := covM }, none) := by
  have hmem : cart_head ∈ lines := by
    obtain ⟨hlt, hget⟩ := List.getElem?_eq_some.mp hk
    exact hget ▸ List.getElem_mem hlt
  have hcount : lines.count cart_head > 0 := by
    rcases Nat.eq_zero_or_pos (lines.count cart_head) with h | h
    · exact absurd hmem (List.count_eq_zero.mp h)
    · exact h
  rw [parse_orbfit, if_pos hcount, carLoc_eq_last lines k hk hlast]
  exact parseCartSection_ok _ st lab x1 x2 x3 x4 x5 x6 q1 q2 q3 q4 q5 q6 lab2 mjd lab3 qm
    covB covM
    (by rw [getD_drop_take lines k 1 (by omega)]; exact hs1)
    hx1 hx2 hx3 hx4 hx5 hx6
    (by rw [getD_drop_take lines k 2 (by omega)]; exact hs2)
    hm hcov

/-- Closed witness for C2: on the two-section fixture file the parser uses
only the second (last) section, at index 3. -/
theorem C2_file_parser_last_section_witness :
    exFile[3]? = some cart_head
    ∧ parse_orbfit exFile {}
        = ({ helio_ecl_vec := [1, 2, 3, 1/10, 2/10, 3/10],
             helio_ecl_vec_EXISTS := true,
             time_mjd_tt := some 58849,
             helio_ecl_cov_EXISTS := false, helio_ecl_cov := 0 }, none) := by
  have p1 : parseFloat "1.0" = some 1 := by
    simp +decide [parseFloat, parseUFloat, takeDigits, parseExpPart, digitsToNat]
  have p2 : parseFloat "2.0" = some 2 := by
    simp +decide [parseFloat, parseUFloat, takeDigits, parseExpPart, digitsToNat]
  have p3 : parseFloat "3.0" = some 3 := by
    simp +decide [parseFloat, parseUFloat, takeDigits, parseExpPart, digitsToNat]
  have h01 : parseFloat "0.1" = some (1/10) := by
    simp +decide [parseFloat, parseUFloat, takeDigits, parseExpPart, digitsToNat]
  have h02 : parseFloat "0.2" = some (2/10) := by
    simp +decide [parseFloat, parseUFloat, takeDigits, parseExpPart, digitsToNat]
  have h03 : parseFloat "0.3" = some (3/10) := by
    simp +decide [parseFloat, parseUFloat, takeDigits, parseExpPart, digitsToNat]
  have hm : parseFloat "58849.0" = some 58849 := by
    simp +decide [parseFloat, parseUFloat, takeDigits, parseExpPart, digitsToNat]
  have hcov : _parse_Covariance_List ((exFile.drop 3).take 25) = Except.ok (false, 0) := by
    rw [_parse_Covariance_List, if_neg (by decide)]
  refine ⟨by decide, ?_⟩
  exact C2_file_parser_last_section exFile {} 3 "X" "1.0" "2.0" "3.0" "0.1" "0.2" "0.3"
    1 2 3 (1/10) (2/10) (3/10) "X" "58849.0" "X" 58849 false 0
    (by decide)
    (by
      intro j hj hcontra
      have hj6 : j < exFile.length := (List.getElem?_eq_some.mp hcontra).1
      have hlen : exFile.length = 6 := by decide
      have : j = 4 ∨ j = 5 := by omega
      rcases this with rfl | rfl <;> exact absurd hcontra (by decide))
    (by decide) p1 p2 p3 h01 h02 h03 (by decide) hm hcov

/-! ### C1: translation adds the converted ephemeris displacement -/

/-- C1: the heliocentric-to-barycentric translation returns its input plus
the ephemeris displacement at the epoch converted from kilometers to AU by
the fixed constant `au_km` (for 6-vectors including the velocity rate;
with `backwards` the displacement is subtracted); and the orchestrator's
transformed vector equals the ecliptic-to-equatorial rotation of the
parsed vector plus exactly that displacement — rotation first, translation
second. -/
theorem C1_translation_after_rotation :
    ∀ (eph : ℚ → (Fin 3 → ℚ) × (Fin 3 → ℚ)) (jd : ℚ) (v : List ℚ),
      (v.length = 6 →
        equatorial_helio2bary eph v jd false
          = some (v.zipWith (fun x d => x + d / au_km)
              (vec3List (eph jd).1 ++ vec3List (eph jd).2))
        ∧ equatorial_helio2bary eph v jd true
          = some (v.zipWith (fun x d => x - d / au_km)
              (vec3List (eph jd).1 ++ vec3List (eph jd).2)))
      ∧ (v.length = 3 →
        equatorial_helio2bary eph v jd false
          = some (v.zipWith (fun x d => x + d / au_km) (vec3List (eph jd).1)))
      ∧ ∀ (c s t : ℚ) (tdbJd : ℚ → ℚ) (st : ParseElements),
          st.helio_ecl_vec_EXISTS = true → st.helio_ecl_vec = v → v.length = 6 →
          st.time_mjd_tt = some t →
          (make_bary_equatorial c s eph tdbJd st).2 = none
          ∧ (make_bary_equatorial c s eph tdbJd st).1.bary_eq_vec
            = (mulVecL 6 (blockR6 (rotate_matrix c s)) v).zipWith
                (fun x d => x + d / au_km)
                (vec3List (eph (tdbJd t)).1 ++ vec3List (eph (tdbJd t)).2) := by
  intro eph jd v
  have hplus : (fun x d => x + d * (1 : ℚ) / au_km) = fun x d => x + d / au_km := by
    funext x d
    ring
  have hminus : (fun (x d : ℚ) => x + -d / au_km) = fun (x d : ℚ) => x - d / au_km := by
    funext x d
    ring
  refine ⟨?_, ?_, ?_⟩
  · intro h6
    constructor
    · simp [equatorial_helio2bary, h6]
    · simp only [equatorial_helio2bary, h6]
      norm_num
      rw [hminus]
  · intro h3
    simp [equatorial_helio2bary, h3]
  · intro c s t tdbJd st hv hvec hlen ht
    have hrot : ecliptic_to_equatorial c s (NDArr.one st.helio_ecl_vec) false
        = some (NDArr.one (mulVecL 6 (blockR6 (rotate_matrix c s)) v)) := by
      rw [hvec]
      simpa using eclToEq_vec6 c s false v hlen
    have hlen' : (mulVecL 6 (blockR6 (rotate_matrix c s)) v).length = 6 :=
      length_mulVecL 6 _ v
    have htr : equatorial_helio2bary eph (mulVecL 6 (blockR6 (rotate_matrix c s)) v)
        (tdbJd t) false
        = some ((mulVecL 6 (blockR6 (rotate_matrix c s)) v).zipWith
            (fun x d => x + d / au_km)
            (vec3List (eph (tdbJd t)).1 ++ vec3List (eph (tdbJd t)).2)) := by
      rw [helio2bary_eq eph _ (tdbJd t) false (Or.inr hlen')]
      simp only [if_neg (by simp : ¬(false = true)), hlen']
      rw [if_neg (by omega), hplus]
    cases hcE : st.helio_ecl_cov_EXISTS with
    | false =>
      simp [make_bary_equatorial, hv, ht, hrot, htr, hcE]
    | true =>
      have hcov := eclToEq_cov c s false st.helio_ecl_cov
      simp only [if_neg (by simp : ¬(false = true))] at hcov
      simp [make_bary_equatorial, hv, ht, hrot, htr, hcE, hcov]

/-- Closed witness for C1 at a zero-displacement fixture ephemeris and the
parsed-state fixture. -/
theorem C1_translation_after_rotation_witness :
    ([1, 2, 3, 4, 5, 6] : List ℚ).length = 6
    ∧ equatorial_helio2bary ephZero [1, 2, 3, 4, 5, 6] 0 false
        = some (([1, 2, 3, 4, 5, 6] : List ℚ).zipWith (fun x d => x + d / au_km)
            (vec3List (ephZero 0).1 ++ vec3List (ephZero 0).2))
    ∧ stVec.helio_ecl_vec_EXISTS = true
    ∧ (make_bary_equatorial 1 0 ephZero id stVec).2 = none := by
  refine ⟨by decide,
    ((C1_translation_after_rotation ephZero 0 [1, 2, 3, 4, 5, 6]).1 (by decide)).1,
    by decide, ?_⟩
  exact ((C1_translation_after_rotation ephZero 0 stVec.helio_ecl_vec).2.2 1 0 58849 id stVec
    (by decide) rfl (by decide) (by decide)).1

/-! ### C7: the transform step -/

/-- C7: the transform populates the barycentric-equatorial vector and its
flag exactly when the heliocentric-ecliptic vector exists, populates the
barycentric-equatorial covariance (by rotation only) and its flag exactly
when the heliocentric-ecliptic covariance exists, and raises the fatal
nothing-to-transform error if and only if neither exists, leaving the
state unchanged in that case. -/
theorem C7_transform_step (c s : ℚ) (eph : ℚ → (Fin 3 → ℚ) × (Fin 3 → ℚ))
    (tdbJd : ℚ → ℚ) (st : ParseElements)
    (hlen : st.helio_ecl_vec_EXISTS = true →
      st.helio_ecl_vec.length = 3 ∨ st.helio_ecl_vec.length = 6)
    (ht : st.helio_ecl_vec_EXISTS = true → ∃ t, st.time_mjd_tt = some t)
    (hbv : st.bary_eq_vec_EXISTS = false) (hbc : st.bary_eq_cov_EXISTS = false) :
    ((make_bary_equatorial c s eph tdbJd st).2 = none ↔
      (st.helio_ecl_vec_EXISTS = true ∨ st.helio_ecl_cov_EXISTS = true))
    ∧ (st.helio_ecl_vec_EXISTS = false → st.helio_ecl_cov_EXISTS = false →
        make_bary_equatorial c s eph tdbJd st
          = (st, some "TypeError: no valid helio_ecl to transform into bary_eq"))
    ∧ (make_bary_equatorial c s eph tdbJd st).1.bary_eq_vec_EXISTS
        = st.helio_ecl_vec_EXISTS
    ∧ (make_bary_equatorial c s eph tdbJd st).1.bary_eq_cov_EXISTS
        = st.helio_ecl_cov_EXISTS
    ∧ (st.helio_ecl_cov_EXISTS = true →
        (make_bary_equatorial c s eph tdbJd st).1.bary_eq_cov
          = blockR6 (rotate_matrix c s) * st.helio_ecl_cov
              * (blockR6 (rotate_matrix c s)).transpose) := by
  show _ ∧ _ ∧ _ ∧ _ ∧ (_ → _ = covRot c s st.helio_ecl_cov)
  have hcov0 : ecliptic_to_equatorial c s (NDArr.two (toLists st.helio_ecl_cov)) false
      = some (NDArr.two (toLists (covRot c s st.helio_ecl_cov))) := by
    simpa [covRot] using eclToEq_cov c s false st.helio_ecl_cov
  cases hv : st.helio_ecl_vec_EXISTS with
  | false =>
    cases hc : st.helio_ecl_cov_EXISTS with
    | false =>
      have hres : make_bary_equatorial c s eph tdbJd st
          = (st, some "TypeError: no valid helio_ecl to transform into bary_eq") := by
        simp [make_bary_equatorial, hv, hc]
      rw [hres]
      simp [hv, hc, hbv, hbc]
    | true =>
      have hres : make_bary_equatorial c s eph tdbJd st
          = ({ st with bary_eq_cov := covRot c s st.helio_ecl_cov,
                       bary_eq_cov_EXISTS := true }, none) := by
        simp [make_bary_equatorial, hv, hc, hcov0, ofLists_toLists]
      rw [hres]
      simp [hv, hc, hbv]
  | true =>
    obtain ⟨t, ht'⟩ := ht hv
    obtain ⟨w, hw, hwlen⟩ : ∃ w, ecliptic_to_equatorial c s
        (NDArr.one st.helio_ecl_vec) false = some (NDArr.one w)
        ∧ (w.length = 3 ∨ w.length = 6) := by
      rcases hlen hv with h3 | h6
      · exact ⟨_, by simpa using eclToEq_vec3 c s false _ h3,
          Or.inl (length_mulVecL 3 _ _)⟩
      · exact ⟨_, by simpa using eclToEq_vec6 c s false _ h6,
          Or.inr (length_mulVecL 6 _ _)⟩
    obtain ⟨u, hu⟩ : ∃ u, equatorial_helio2bary eph w (tdbJd t) false = some u :=
      ⟨_, helio2bary_eq eph w (tdbJd t) false hwlen⟩
    cases hc : st.helio_ecl_cov_EXISTS with
    | false =>
      have hres : make_bary_equatorial c s eph tdbJd st
          = ({ st with bary_eq_vec := u, bary_eq_vec_EXISTS := true }, none) := by
        simp [make_bary_equatorial, hv, hc, ht', hw, hu]
      rw [hres]
      simp [hv, hc, hbc]
    | true =>
      have hres : make_bary_equatorial c s eph tdbJd st
          = ({ st with bary_eq_vec := u, bary_eq_vec_EXISTS := true,
                       bary_eq_cov := covRot c s st.helio_ecl_cov,
                       bary_eq_cov_EXISTS := true }, none) := by
        simp [make_bary_equatorial, hv, hc, ht', hw, hu, hcov0, ofLists_toLists]
      rw [hres]
      simp [hv, hc]

/-- Closed witness for C7 at the parsed-state fixture. -/
theorem C7_transform_step_witness :
    stVec.bary_eq_vec_EXISTS = false
    ∧ ((make_bary_equatorial 1 0 ephZero id stVec).2 = none ↔
        (stVec.helio_ecl_vec_EXISTS = true ∨ stVec.helio_ecl_cov_EXISTS = true)) := by
  refine ⟨by decide, (C7_transform_step 1 0 ephZero id stVec ?_ ?_ (by decide) (by decide)).1⟩
  · intro _
    exact Or.inr (by decide)
  · intro _
    exact ⟨58849, by decide⟩

/-! ### C5: the round trip -/

theorem rotList_fwd (c s : ℚ) (v : List ℚ) (h : v.length = 6) :
    rotList c s false v = some (mulVecL 6 (blockR6 (rotate_matrix c s)) v) := by
  have h1 : ecliptic_to_equatorial c s (NDArr.one v) false
      = some (NDArr.one (mulVecL 6 (blockR6 (rotate_matrix c s)) v)) := by
    simpa using eclToEq_vec6 c s false v h
  rw [rotList, h1]

theorem rotList_bwd (c s : ℚ) (v : List ℚ) (h : v.length = 6) :
    rotList c s true v = some (mulVecL 6 (blockR6 (rotate_matrix c (-s))) v) := by
  have h1 : ecliptic_to_equatorial c s (NDArr.one v) true
      = some (NDArr.one (mulVecL 6 (blockR6 (rotate_matrix c (-s))) v)) := by
    simpa using eclToEq_vec6 c s true v h
  rw [rotList, h1]

theorem rot_back_rot (c s : ℚ) (h : c ^ 2 + s ^ 2 = 1) (v : List ℚ) (hv : v.length = 6) :
    (rotList c s false v).bind (fun w => rotList c s true w) = some v := by
  rw [rotList_fwd c s v hv, Option.some_bind,
    rotList_bwd c s _ (length_mulVecL 6 _ v), mulVecL_mulVecL, blockR6_mul,
    rotate_matrix_inv c s h, blockR6_one, mulVecL_one 6 v hv]

theorem zipWith_add_neg_cancel : ∀ (v d : List ℚ), v.length ≤ d.length →
    (v.zipWith (fun x e => x + e / au_km) d).zipWith (fun x e => x + -e / au_km) d = v
  | [], _, _ => by simp
  | x :: v, e :: d, h => by
    simp only [List.zipWith_cons_cons]
    rw [zipWith_add_neg_cancel v d (by simpa using h)]
    congr 1
    ring
  | x :: v, [], h => by simp at h

theorem trans_fwd6 (eph : ℚ → (Fin 3 → ℚ) × (Fin 3 → ℚ)) (jd : ℚ)
    (v : List ℚ) (h6 : v.length = 6) :
    equatorial_helio2bary eph v jd false
      = some (v.zipWith (fun x d => x + d / au_km)
          (vec3List (eph jd).1 ++ vec3List (eph jd).2)) := by
  simp [equatorial_helio2bary, h6]

theorem trans_bwd_undoes (eph : ℚ → (Fin 3 → ℚ) × (Fin 3 → ℚ)) (jd : ℚ)
    (v : List ℚ) (h6 : v.length = 6) :
    equatorial_helio2bary eph
      (v.zipWith (fun x d => x + d / au_km) (vec3List (eph jd).1 ++ vec3List (eph jd).2))
      jd true = some v := by
  have hwlen : (v.zipWith (fun x d => x + d / au_km)
      (vec3List (eph jd).1 ++ vec3List (eph jd).2)).length = 6 := by
    simp [vec3List, h6]
  have h2 : equatorial_helio2bary eph
      (v.zipWith (fun x d => x + d / au_km) (vec3List (eph jd).1 ++ vec3List (eph jd).2))
      jd true
      = some ((v.zipWith (fun x d => x + d / au_km)
          (vec3List (eph jd).1 ++ vec3List (eph jd).2)).zipWith
            (fun x d => x + -d / au_km) (vec3List (eph jd).1 ++ vec3List (eph jd).2)) := by
    simp only [equatorial_helio2bary, hwlen]
    norm_num
  rw [h2, zipWith_add_neg_cancel v _ (by simp [vec3List, h6])]

theorem trans_back_trans (eph : ℚ → (Fin 3 → ℚ) × (Fin 3 → ℚ)) (jd : ℚ)
    (v : List ℚ) (h6 : v.length = 6) :
    (equatorial_helio2bary eph v jd false).bind
      (fun w => equatorial_helio2bary eph w jd true) = some v := by
  rw [trans_fwd6 eph jd v h6, Option.some_bind, trans_bwd_undoes eph jd v h6]

/-- C5 (amended): for every 6-vector `v`, epoch, ephemeris, and rotation
parameters with `c² + s² = 1`, rotating then translating and then undoing
the two steps innermost-first — inverse translation (backwards) followed
by inverse rotation (backwards) — recovers `v` exactly; each of the two
operations is individually inverted by its `backwards` flag. -/
theorem C5_round_trip_amended (c s : ℚ) (h : c ^ 2 + s ^ 2 = 1)
    (eph : ℚ → (Fin 3 → ℚ) × (Fin 3 → ℚ)) (jd : ℚ) (v : List ℚ) (h6 : v.length = 6) :
    roundTripTransBackFirst c s eph jd v = some v
    ∧ (rotList c s false v).bind (fun w => rotList c s true w) = some v
    ∧ (equatorial_helio2bary eph v jd false).bind
        (fun w => equatorial_helio2bary eph w jd true) = some v := by
  refine ⟨?_, rot_back_rot c s h v h6, trans_back_trans eph jd v h6⟩
  have hlen1 : (mulVecL 6 (blockR6 (rotate_matrix c s)) v).length = 6 :=
    length_mulVecL 6 _ v
  rw [roundTripTransBackFirst, rotList_fwd c s v h6, Option.some_bind,
    trans_fwd6 eph jd _ hlen1, Option.some_bind, trans_bwd_undoes eph jd _ hlen1,
    Option.some_bind, rotList_bwd c s _ hlen1, mulVecL_mulVecL, blockR6_mul,
    rotate_matrix_inv c s h, blockR6_one, mulVecL_one 6 v h6]

theorem mulVecL6_eq (A : Matrix (Fin 6) (Fin 6) ℚ) (v : List ℚ) :
    mulVecL 6 A v
      = [∑ j, A 0 j * v.getD j 0, ∑ j, A 1 j * v.getD j 0, ∑ j, A 2 j * v.getD j 0,
         ∑ j, A 3 j * v.getD j 0, ∑ j, A 4 j * v.getD j 0, ∑ j, A 5 j * v.getD j 0] := rfl

theorem mulVecL_zero6 (A : Matrix (Fin 6) (Fin 6) ℚ) :
    mulVecL 6 A [0, 0, 0, 0, 0, 0] = [0, 0, 0, 0, 0, 0] := by
  have hz : ∀ j : Fin 6, ([0, 0, 0, 0, 0, 0] : List ℚ).getD j 0 = 0 := by decide
  unfold mulVecL
  simp only [hz, mul_zero, Finset.sum_const_zero]
  rfl

theorem finval3 : ((3 : Fin 6) : Nat) = 3 := rfl

theorem finval4 : ((4 : Fin 6) : Nat) = 4 := rfl

theorem finval5 : ((5 : Fin 6) : Nat) = 5 := rfl

/-- Counterexample to C5 as stated: undoing the composite in the order the
claim lists the inverse steps — inverse rotation first, then inverse
translation — does not recover the input, already at the zero 6-vector
with a unit-sine/cosine pair and a fixture ephemeris displacing one AU
along the y axis. -/
theorem C5_round_trip_counterexample :
    ((3 : ℚ)/5) ^ 2 + ((4 : ℚ)/5) ^ 2 = 1
    ∧ ([0, 0, 0, 0, 0, 0] : List ℚ).length = 6
    ∧ roundTripRotBackFirst (3/5) (4/5) ephY 0 [0, 0, 0, 0, 0, 0]
        ≠ some [0, 0, 0, 0, 0, 0] := by
  refine ⟨by norm_num, by decide, ?_⟩
  have hD : vec3List (ephY 0).1 ++ vec3List (ephY 0).2 = [0, au_km, 0, 0, 0, 0] := rfl
  have h0 : mulVecL 6 (blockR6 (rotate_matrix (3/5) (4/5))) ([0, 0, 0, 0, 0, 0] : List ℚ)
      = [0, 0, 0, 0, 0, 0] := mulVecL_zero6 _
  have h2 : (([0, 0, 0, 0, 0, 0] : List ℚ).zipWith (fun x d => x + d / au_km)
      [0, au_km, 0, 0, 0, 0]) = [0, 1, 0, 0, 0, 0] := by
    simp [au_km]
  have h3 : mulVecL 6 (blockR6 (rotate_matrix (3/5) (-(4/5)))) [0, 1, 0, 0, 0, 0]
      = [0, 3/5, -(4/5), 0, 0, 0] := by
    rw [mulVecL6_eq]
    norm_num [Fin.sum_univ_six, blockR6, rotate_matrix, cons_val_five,
      Matrix.vecHead, Matrix.vecTail, finval3, finval4, finval5]
  have h5 : equatorial_helio2bary ephY [0, 3/5, -(4/5), 0, 0, 0] 0 true
      = some [0, -(2/5), -(4/5), 0, 0, 0] := by
    rw [helio2bary_eq ephY _ 0 true (Or.inr (by decide))]
    norm_num [hD, au_km]
  rw [roundTripRotBackFirst, rotList_fwd _ _ _ (by decide), h0, Option.some_bind,
    trans_fwd6 _ _ _ (by decide), hD, h2, Option.some_bind,
    rotList_bwd _ _ _ (by decide), h3, Option.some_bind, h5]
  simp only [ne_eq, Option.some.injEq, List.cons.injEq]
  norm_num

/-- Closed witness for the amended C5 at a concrete unit pair and the zero
ephemeris. -/
theorem C5_round_trip_amended_witness :
    ((3 : ℚ)/5) ^ 2 + ((4 : ℚ)/5) ^ 2 = 1
    ∧ ([1, 2, 3, 4, 5, 6] : List ℚ).length = 6
    ∧ roundTripTransBackFirst (3/5) (4/5) ephZero 0 [1, 2, 3, 4, 5, 6]
        = some [1, 2, 3, 4, 5, 6] :=
  ⟨by norm_num, by decide,
    (C5_round_trip_amended (3/5) (4/5) (by norm_num) ephZero 0 [1, 2, 3, 4, 5, 6]
      (by decide)).1⟩

/-! ### C9: serialization -/

/-- C9: the written output is the chunk sequence whose first line is
`tstart <jd>` with `<jd>` the epoch converted to the barycentric dynamical
(TDB) Julian date, followed by the fixed lines `tstep +20.0`,
`trange 600.`, `geocentric 0`, `state`, and then the six vector components
each formatted by the `{coeff: 18.15e}` renderer, three per line with the
line breaks written after indices 2 and 5. -/
theorem C9_serialization (tdbJd : ℚ → ℚ) (jdStr : ℚ → String) (fmt : ℚ → String)
    (st : ParseElements) (t : ℚ) (v0 v1 v2 v3 v4 v5 : ℚ)
    (ht : st.time_mjd_tt = some t)
    (hv : st.bary_eq_vec = [v0, v1, v2, v3, v4, v5]) :
    save_elements tdbJd jdStr fmt st
      = some (["tstart " ++ jdStr (tdbJd t) ++ "\n",
               "tstep +20.0\n", "trange 600.\n", "geocentric 0\n", "state\n"]
          ++ [fmt v0 ++ " ", fmt v1 ++ " ", fmt v2 ++ " " ++ "\n",
              fmt v3 ++ " ", fmt v4 ++ " ", fmt v5 ++ " " ++ "\n"]) := by
  simp only [save_elements, ht, hv]
  norm_num [List.enum, List.enumFrom, String.append_empty]

/-- Closed witness for C9 at the transformed-state fixture with opaque
renderers. -/
theorem C9_serialization_witness :
    stSave.time_mjd_tt = some 7
    ∧ stSave.bary_eq_vec = [1, 2, 3, 4, 5, 6]
    ∧ save_elements id (fun _ => "J") (fun _ => "F") stSave
      = some (["tstart " ++ (fun _ : ℚ => "J") (id (7 : ℚ)) ++ "\n",
               "tstep +20.0\n", "trange 600.\n", "geocentric 0\n", "state\n"]
          ++ ["F" ++ " ", "F" ++ " ", "F" ++ " " ++ "\n",
              "F" ++ " ", "F" ++ " ", "F" ++ " " ++ "\n"]) :=
  ⟨rfl, rfl, C9_serialization id (fun _ => "J") (fun _ => "F") stSave 7 1 2 3 4 5 6 rfl rfl⟩
